import Mathlib

/-!
Verification of the feedback-collection service (`app.py`).

The data model and every operation the claims mention are embedded as
executable Lean definitions translated from the source:

* `Feedback` / `Store` mirror the SQLAlchemy models, with `Option` for the
  columns the schema declares nullable and plain types for `nullable=False`
  columns;
* `add_feedback`, `resolve_feedback`, `build_filtered_query`,
  `get_feedback`, `get_metrics`, `get_metrics_trend` mirror the route
  handlers; the external analysers (TextBlob polarity, the zero-shot
  classifier) enter as explicit arguments since they are third-party
  services, while the threshold logic, validation, filtering and
  aggregation are translated line by line;
* `parseDateYMD` models CPython `datetime.strptime(s, "%Y-%m-%d")`
  (4-digit year, 1-2 digit month/day per `_strptime`'s regex, then calendar
  validation) and `parsePyInt` models Python `int(str)`;
* timestamps are rationals counting seconds, a calendar date `d` standing
  for the instant `86400 * toOrdinal d` (its midnight); this is
  order-faithful to SQLite's comparison of stored datetime strings with
  bound date strings, and `date + timedelta(days=1)` is `toOrdinal + 1`.
-/

/-- SQLAlchemy `Store` model: `id` primary key, `name` non-null,
`area` nullable. -/
structure Store where
  id : Int
  name : String
  area : Option String
deriving DecidableEq, Repr

/-- SQLAlchemy `Feedback` model.  `platform`, `text`, `status` are
`nullable=False` hence plain; `category`, `sentiment`, `sentiment_score`,
`store_id` are nullable hence `Option`.  `timestamp` is the stored
creation instant in seconds. -/
structure Feedback where
  id : Nat
  platform : String
  text : String
  timestamp : ℚ
  category : Option String
  sentiment : Option String
  sentiment_score : Option ℚ
  store_id : Option Int
  status : String
deriving DecidableEq, Repr

/-- A calendar date as produced by `datetime.strptime(_, "%Y-%m-%d").date()`. -/
structure Date where
  year : Nat
  month : Nat
  day : Nat
deriving DecidableEq, Repr

/-- Gregorian leap-year rule (as in Python's `calendar.isleap`). -/
def isLeap (y : Nat) : Bool :=
  (y % 4 == 0 && y % 100 != 0) || (y % 400 == 0)

/-- Days in a month of a given year. -/
def daysInMonth (y m : Nat) : Nat :=
  if m == 2 then (if isLeap y then 29 else 28)
  else if m == 4 || m == 6 || m == 9 || m == 11 then 30
  else 31

/-- Numeric value of a digit string. -/
def digitsVal (cs : List Char) : Nat :=
  cs.foldl (fun a c => 10 * a + (c.toNat - 48)) 0

/-- Split a character list at '-' separators (semantics of
`String.splitOn "-"`, written structurally so the kernel can evaluate it). -/
def splitDash : List Char → List (List Char)
  | [] => [[]]
  | c :: rest =>
    if c = '-' then [] :: splitDash rest
    else
      match splitDash rest with
      | [] => [[c]]
      | g :: gs => (c :: g) :: gs

/-- Model of CPython `datetime.strptime(s, "%Y-%m-%d").date()`:
`_strptime` matches `%Y` as exactly four digits, `%m` and `%d` as one or
two digits, the whole string must be consumed, and the `datetime`
constructor then validates the month, the day against the month length,
and rejects year 0. -/
def parseDateYMD (s : String) : Option Date :=
  match splitDash s.data with
  | [ys, ms, ds] =>
    if ys.length = 4 ∧ ys.all Char.isDigit
        ∧ (ms.length = 1 ∨ ms.length = 2) ∧ ms.all Char.isDigit
        ∧ (ds.length = 1 ∨ ds.length = 2) ∧ ds.all Char.isDigit then
      let y := digitsVal ys
      let m := digitsVal ms
      let d := digitsVal ds
      if 1 ≤ y ∧ 1 ≤ m ∧ m ≤ 12 ∧ 1 ≤ d ∧ d ≤ daysInMonth y m then
        some ⟨y, m, d⟩
      else none
    else none
  | _ => none

/-- Days contributed by the months strictly before month `m` of year `y`. -/
def daysBeforeMonth (y m : Nat) : Nat :=
  (List.range (m - 1)).foldl (fun a i => a + daysInMonth y (i + 1)) 0

/-- Proleptic-Gregorian ordinal of a date, as Python's `date.toordinal`
(0001-01-01 has ordinal 1).  `date + timedelta(days=1)` adds 1 here. -/
def toOrdinal (d : Date) : Nat :=
  365 * (d.year - 1) + (d.year - 1) / 4 - (d.year - 1) / 100 + (d.year - 1) / 400
    + daysBeforeMonth d.year d.month + d.day

/-- The instant (in seconds) of a date's midnight: the value a bound
calendar date denotes in a comparison against the `timestamp` column. -/
def dateSecs (d : Date) : ℚ := 86400 * (toOrdinal d : ℚ)

/-- Midnight of the day after `d`: the exclusive upper bound the code
builds as `end_date + timedelta(days=1)`. -/
def nextDaySecs (d : Date) : ℚ := 86400 * ((toOrdinal d : ℚ) + 1)

/-- Calendar day of a timestamp: what `strftime('%Y-%m-%d', timestamp)`
buckets by, represented by the day's ordinal. -/
def dayOf (t : ℚ) : Int := (t / 86400).floor

/-- Strip leading and trailing whitespace (Python `str.strip()`). -/
def trimWs (cs : List Char) : List Char :=
  ((cs.dropWhile Char.isWhitespace).reverse.dropWhile Char.isWhitespace).reverse

/-- No two adjacent underscores. -/
def noDoubleUnderscore : List Char → Bool
  | [] => true
  | [_] => true
  | a :: b :: rest => !(a == '_' && b == '_') && noDoubleUnderscore (b :: rest)

/-- A digit run as Python `int()` accepts after the sign: nonempty digits
with optional single underscores strictly between digits. -/
def validPyDigits (cs : List Char) : Bool :=
  !cs.isEmpty && cs.all (fun c => c.isDigit || c == '_')
    && (match cs with | [] => false | c :: _ => c.isDigit)
    && (match cs.getLast? with | some c => c.isDigit | none => false)
    && noDoubleUnderscore cs

/-- Model of Python `int(s)` on strings: optional surrounding whitespace,
optional sign, then a digit run (underscore separators allowed);
`ValueError` is `none`. -/
def parsePyInt (s : String) : Option Int :=
  let cs := trimWs s.data
  let signedBody : Int × List Char :=
    match cs with
    | '+' :: r => (1, r)
    | '-' :: r => (-1, r)
    | r => (1, r)
  if validPyDigits signedBody.2 then
    some (signedBody.1 * (digitsVal (signedBody.2.filter Char.isDigit) : Int))
  else none

/-- Events emitted through `socketio.emit`. -/
inductive Event where
  | new_feedback (message : String)
  | feedback_resolved (id : Nat)
deriving DecidableEq, Repr

/-- The JSON body of `POST /v1/feedback`: `request.get_json()` may be
absent, and each field may be missing. -/
structure IngestPayload where
  platform : Option String
  text : Option String
  store_id : Option Int
deriving DecidableEq, Repr

/-- The `analysis` object of the ingestion response. -/
structure Analysis where
  category : String
  category_confidence : ℚ
  sentiment : String
  polarity_score : ℚ
deriving DecidableEq, Repr

/-- Fixed candidate set handed to the zero-shot classifier (line 68). -/
def candidate_labels : List String :=
  ["Quality of food", "Customer service", "Speed", "Ambience"]

/-- `POST /v1/feedback` (`add_feedback`).  `polarity` is
`TextBlob(text).sentiment.polarity`; `clsLabels`/`clsScores` are the
`labels`/`scores` lists of the classifier result; `newId`/`now` are the
primary key and `datetime.utcnow` default assigned on commit.  Returns
the new table contents, the emitted event, the new id and the analysis
object, or `none` when the request is rejected (missing field) or the
classifier result is empty (the `result['labels'][0]` access raises and
nothing is persisted). -/
def add_feedback (data : Option IngestPayload) (polarity : ℚ)
    (clsLabels : List String) (clsScores : List ℚ)
    (db : List Feedback) (newId : Nat) (now : ℚ) :
    Option (List Feedback × Event × Nat × Analysis) :=
  match data with
  | none => none
  | some d =>
    match d.text, d.platform with
    | some tx, some pf =>
      let sentiment : String :=
        if polarity > 0.2 then "Positive"
        else if polarity < -0.1 then "Negative"
        else "Neutral"
      match clsLabels.head?, clsScores.head? with
      | some category, some conf =>
        let fb : Feedback :=
          { id := newId, platform := pf, text := tx, timestamp := now,
            category := some category, sentiment := some sentiment,
            sentiment_score := some polarity, store_id := d.store_id,
            status := "New" }
        some (db ++ [fb],
              Event.new_feedback ("New feedback " ++ toString newId ++ " added"),
              newId,
              { category := category, category_confidence := conf,
                sentiment := sentiment, polarity_score := polarity })
      | _, _ => none
    | _, _ => none

/-- Set the status of the row with primary key `fid` to Resolved
(`Feedback.query.get(fid)` returns the first and only row with that key). -/
def setResolved : List Feedback → Nat → List Feedback
  | [], _ => []
  | f :: fs, fid =>
    if f.id = fid then { f with status := "Resolved" } :: fs
    else f :: setResolved fs fid

/-- `POST /v1/feedback/<id>/resolve` (`resolve_feedback`): 404 (`none`)
when no row has the id, otherwise the updated table and the emitted
`feedback_resolved` event. -/
def resolve_feedback (db : List Feedback) (fid : Nat) :
    Option (List Feedback × Event) :=
  if db.any (fun f => f.id == fid) then
    some (setResolved db fid, Event.feedback_resolved fid)
  else none

/-- Raw query parameters of a read request; `none` is an absent parameter. -/
structure QueryParams where
  start : Option String
  end_ : Option String
  store_id : Option String
  area : Option String
  status : Option String
deriving DecidableEq, Repr

/-- Python truthiness of `request.args.get(_)`: `None` and `""` are
falsy, any other string is its own truthy value. -/
def getTruthy : Option String → Option String
  | none => none
  | some s => if s = "" then none else some s

/-- The `query.join(Store).filter(Store.area == area_str)` predicate: the
row joins some store whose `area` equals the parameter (NULL `area`
matches nothing in SQL, NULL `store_id` joins nothing). -/
def areaFilter (stores : List Store) (a : String) (f : Feedback) : Bool :=
  stores.any (fun s => f.store_id == some s.id && s.area == some a)

/-- Last step of the `try` block: `if status_str:` exact-match filter. -/
def applyStatus (p : QueryParams) (q : List Feedback → List Feedback) :
    Option (List Feedback → List Feedback) :=
  match getTruthy p.status with
  | some st => some (fun fs => (q fs).filter (fun f => f.status == st))
  | none => some q

/-- `if store_id_str:` — `int(store_id_str)` may raise `ValueError`,
aborting the whole build. -/
def applyStore (p : QueryParams) (q : List Feedback → List Feedback) :
    Option (List Feedback → List Feedback) :=
  match getTruthy p.store_id with
  | some s =>
    match parsePyInt s with
    | none => none
    | some n => applyStatus p (fun fs => (q fs).filter (fun f => f.store_id == some n))
  | none => applyStatus p q

/-- `if end_date_str:` — parse, then
`Feedback.timestamp < end_date + timedelta(days=1)`. -/
def applyEnd (p : QueryParams) (q : List Feedback → List Feedback) :
    Option (List Feedback → List Feedback) :=
  match getTruthy p.end_ with
  | some s =>
    match parseDateYMD s with
    | none => none
    | some d => applyStore p (fun fs => (q fs).filter (fun f => decide (f.timestamp < nextDaySecs d)))
  | none => applyStore p q

/-- `if start_date_str:` — parse, then `Feedback.timestamp >= start_date`. -/
def applyStart (p : QueryParams) (q : List Feedback → List Feedback) :
    Option (List Feedback → List Feedback) :=
  match getTruthy p.start with
  | some s =>
    match parseDateYMD s with
    | none => none
    | some d => applyEnd p (fun fs => (q fs).filter (fun f => decide (dateSecs d ≤ f.timestamp)))
  | none => applyEnd p q

/-- `build_filtered_query`: area filter first (outside the `try` block),
then start, end, store_id, status inside it; any `ValueError` yields
`None`.  The result is an unevaluated filter over the feedback table. -/
def build_filtered_query (stores : List Store) (p : QueryParams) :
    Option (List Feedback → List Feedback) :=
  applyStart p
    (match getTruthy p.area with
     | some a => fun fs => fs.filter (areaFilter stores a)
     | none => fun fs => fs)

/-- `GET /v1/feedback` (`get_feedback`): 400 (`none`) when the build
fails, else the filtered rows ordered by timestamp descending. -/
def get_feedback (stores : List Store) (db : List Feedback) (p : QueryParams) :
    Option (List Feedback) :=
  (build_filtered_query stores p).map
    (fun q => List.insertionSort (fun a b => b.timestamp ≤ a.timestamp) (q db))

/-- SQL `AVG` over a nullable column: NULLs are skipped; NULL when no
non-null value exists. -/
def sqlAvg (xs : List (Option ℚ)) : Option ℚ :=
  let v := xs.filterMap id
  if v.length = 0 then none else some (v.sum / v.length)

/-- The `group_by(Feedback.category)` aggregate: one row per distinct
category value in the view, with the group size and the `AVG` of
`sentiment_score`. -/
def category_metrics (view : List Feedback) : List (Option String × Nat × Option ℚ) :=
  ((view.map Feedback.category).dedup).map (fun c =>
    let g := view.filter (fun f => f.category == c)
    (c, g.length, sqlAvg (g.map Feedback.sentiment_score)))

/-- The `group_by(Feedback.sentiment)` aggregate: one row per distinct
sentiment value in the view with the group size. -/
def sentiment_counts (view : List Feedback) : List (Option String × Nat) :=
  ((view.map Feedback.sentiment).dedup).map (fun s =>
    (s, (view.filter (fun f => f.sentiment == s)).length))

/-- One iteration of `for s, count in sentiment_counts: if s in
sentiments: sentiments[s] = count` over the fixed dictionary. -/
def applySentimentRow (m : List (String × Nat)) (row : Option String × Nat) :
    List (String × Nat) :=
  match row.1 with
  | some s =>
    if m.any (fun q => q.1 == s) then
      m.map (fun q => if q.1 == s then (q.1, row.2) else q)
    else m
  | none => m

/-- The `feedback_by_sentiment` dictionary: initialised to the three
fixed keys at 0, then updated from the grouped counts. -/
def feedback_by_sentiment (view : List Feedback) : List (String × Nat) :=
  (sentiment_counts view).foldl applySentimentRow
    [("Positive", 0), ("Negative", 0), ("Neutral", 0)]

/-- The response body of `GET /v1/metrics`. -/
structure Metrics where
  total_feedback : Nat
  feedback_by_sentiment : List (String × Nat)
  feedback_by_category : List (Option String × Nat × Option ℚ)
deriving DecidableEq, Repr

/-- `GET /v1/metrics` (`get_metrics`). -/
def get_metrics (stores : List Store) (db : List Feedback) (p : QueryParams) :
    Option Metrics :=
  (build_filtered_query stores p).map (fun q =>
    let view := q db
    { total_feedback := view.length,
      feedback_by_sentiment := feedback_by_sentiment view,
      feedback_by_category := category_metrics view })

/-- The trend rows: group the view by calendar day of `timestamp`, take
the `AVG` of `sentiment_score` per group, order ascending by the date
key (`order_by('date')`; lexicographic order of `%Y-%m-%d` strings is
day order). -/
def daily_trend (view : List Feedback) : List (Int × Option ℚ) :=
  (List.insertionSort (fun a b => a ≤ b) ((view.map (fun f => dayOf f.timestamp)).dedup)).map
    (fun d =>
      let g := view.filter (fun f => dayOf f.timestamp == d)
      (d, sqlAvg (g.map Feedback.sentiment_score)))

/-- `GET /v1/metrics/trend` (`get_metrics_trend`). -/
def get_metrics_trend (stores : List Store) (db : List Feedback) (p : QueryParams) :
    Option (List (Int × Option ℚ)) :=
  (build_filtered_query stores p).map (fun q => daily_trend (q db))

/-- The non-null column contents of the §3 invariant that the schema
itself does not force: the three enrichment columns are nullable in the
schema and must be populated by the operations (`platform`, `text`,
`status` are `nullable=False`, hence plain `String` here). -/
def wellFormed (f : Feedback) : Prop :=
  f.category ≠ none ∧ f.sentiment ≠ none ∧ f.sentiment_score ≠ none

instance : DecidablePred wellFormed := fun f => by
  unfold wellFormed
  infer_instance

/-- Every row of `setResolved db fid` is a row of `db`, possibly with its
status set to Resolved. -/
theorem mem_setResolved (db : List Feedback) (fid : Nat) (g : Feedback)
    (hg : g ∈ setResolved db fid) :
    ∃ f ∈ db, g = f ∨ g = { f with status := "Resolved" } := by
  induction db with
  | nil => simp [setResolved] at hg
  | cons f fs ih =>
    by_cases h : f.id = fid
    · simp only [setResolved, if_pos h, List.mem_cons] at hg
      rcases hg with hg | hg
      · exact ⟨f, List.mem_cons_self f fs, Or.inr hg⟩
      · exact ⟨g, List.mem_cons_of_mem f hg, Or.inl rfl⟩
    · simp only [setResolved, if_neg h, List.mem_cons] at hg
      rcases hg with hg | hg
      · exact ⟨f, List.mem_cons_self f fs, Or.inl hg⟩
      · obtain ⟨f', hf', hor⟩ := ih hg
        exact ⟨f', List.mem_cons_of_mem f hf', hor⟩

/-- If the row found for `fid` is already Resolved, updating it changes
nothing. -/
theorem setResolved_eq_self (db : List Feedback) (fid : Nat) (f : Feedback)
    (hfind : db.find? (fun g => g.id == fid) = some f)
    (hst : f.status = "Resolved") :
    setResolved db fid = db := by
  induction db with
  | nil => simp at hfind
  | cons g gs ih =>
    by_cases h : g.id = fid
    · have hb : (g.id == fid) = true := by simpa using h
      simp only [List.find?_cons, hb] at hfind
      have hgf : g = f := Option.some.inj hfind
      subst hgf
      simp only [setResolved, if_pos h]
      rw [← hst]
    · have hb : (g.id == fid) = false := by simpa using h
      simp only [List.find?_cons, hb] at hfind
      simp only [setResolved, if_neg h]
      rw [ih hfind]

/-- C7: resolving a feedback item whose status is already Resolved is
idempotent — the operation succeeds (no 404, no error), the stored table
is unchanged, and the `feedback_resolved` event carrying the item's id is
still published, exactly as on a first resolution. -/
theorem resolve_feedback_idempotent (db : List Feedback) (fid : Nat) (f : Feedback)
    (hfind : db.find? (fun g => g.id == fid) = some f)
    (hst : f.status = "Resolved") :
    resolve_feedback db fid = some (db, Event.feedback_resolved fid) := by
  have hmem : f ∈ db := List.mem_of_find?_eq_some hfind
  have hp : (f.id == fid) = true := by simpa using List.find?_some hfind
  have hany : db.any (fun g => g.id == fid) = true :=
    List.any_eq_true.mpr ⟨f, hmem, hp⟩
  unfold resolve_feedback
  rw [if_pos hany, setResolved_eq_self db fid f hfind hst]

/-- Witness for C7 at a concrete already-Resolved row. -/
theorem resolve_feedback_idempotent_witness :
    resolve_feedback
      [{ id := 3, platform := "web", text := "ok", timestamp := 0,
         category := some "Speed", sentiment := some "Neutral",
         sentiment_score := some 0, store_id := none, status := "Resolved" }] 3
      = some ([{ id := 3, platform := "web", text := "ok", timestamp := 0,
                 category := some "Speed", sentiment := some "Neutral",
                 sentiment_score := some 0, store_id := none, status := "Resolved" }],
              Event.feedback_resolved 3) :=
  resolve_feedback_idempotent _ 3 _ rfl rfl

/-- C8: on a table whose rows all satisfy the non-null invariant, both
mutating operations preserve it — ingestion appends a row with all of
`category`, `sentiment`, `sentiment_score` populated (`platform`, `text`,
`status` being non-null by schema type), and resolution only rewrites
`status`. -/
theorem persisted_feedback_wellformed (db : List Feedback)
    (hdb : ∀ f ∈ db, wellFormed f) :
    (∀ data polarity clsLabels clsScores newId now out,
       add_feedback data polarity clsLabels clsScores db newId now = some out →
       ∀ f ∈ out.1, wellFormed f)
    ∧ (∀ fid out, resolve_feedback db fid = some out → ∀ f ∈ out.1, wellFormed f) := by
  constructor
  · intro data polarity clsLabels clsScores newId now out h
    match data with
    | none => simp [add_feedback] at h
    | some d =>
      match htx : d.text, hpf : d.platform with
      | none, _ => simp [add_feedback, htx] at h
      | some tx, none => simp [add_feedback, htx, hpf] at h
      | some tx, some pf =>
        match hl : clsLabels.head?, hc : clsScores.head? with
        | none, _ => simp [add_feedback, htx, hpf, hl] at h
        | some cat, none => simp [add_feedback, htx, hpf, hl, hc] at h
        | some cat, some conf =>
          simp only [add_feedback, htx, hpf, hl, hc, Option.some.injEq] at h
          intro f hf
          rw [← h] at hf
          simp only [List.mem_append, List.mem_singleton] at hf
          rcases hf with hf | hf
          · exact hdb f hf
          · subst hf
            simp [wellFormed]
  · intro fid out h
    unfold resolve_feedback at h
    by_cases hany : db.any (fun f => f.id == fid) = true
    · rw [if_pos hany] at h
      rw [← Option.some.inj h]
      intro f hf
      obtain ⟨g, hg, hor⟩ := mem_setResolved db fid f hf
      rcases hor with h1 | h1
      · rw [h1]; exact hdb g hg
      · rw [h1]
        have := hdb g hg
        unfold wellFormed at this ⊢
        simpa using this
    · rw [if_neg hany] at h
      exact absurd h (by simp)

/-- Witness for C8 on the empty table with a concrete ingestion. -/
theorem persisted_feedback_wellformed_witness :
    (∀ data polarity clsLabels clsScores newId now out,
       add_feedback data polarity clsLabels clsScores [] newId now = some out →
       ∀ f ∈ out.1, wellFormed f)
    ∧ (∀ fid out, resolve_feedback [] fid = some out → ∀ f ∈ out.1, wellFormed f) :=
  persisted_feedback_wellformed [] (by simp)

/-- C1: for every accepted ingestion, the stored and returned sentiment
label follows the fixed threshold rule on the polarity score — Positive
iff polarity > 0.2, Negative iff polarity < -0.1, and Neutral otherwise,
including exactly at the two boundaries. -/
theorem add_feedback_sentiment_thresholds (pf tx : String) (sid : Option Int)
    (polarity : ℚ) (l : String) (ls : List String) (c : ℚ) (cs : List ℚ)
    (db : List Feedback) (newId : Nat) (now : ℚ) :
    ∃ fb ev rid A,
      add_feedback (some ⟨some pf, some tx, sid⟩) polarity (l :: ls) (c :: cs) db newId now
        = some (db ++ [fb], ev, rid, A)
      ∧ fb.sentiment_score = some polarity
      ∧ fb.sentiment = some A.sentiment
      ∧ (0.2 < polarity → fb.sentiment = some "Positive")
      ∧ (polarity < -0.1 → fb.sentiment = some "Negative")
      ∧ (-0.1 ≤ polarity → polarity ≤ 0.2 → fb.sentiment = some "Neutral") := by
  refine ⟨_, _, _, _, rfl, rfl, rfl, ?_, ?_, ?_⟩
  · intro h
    simp only [gt_iff_lt, if_pos h]
  · intro h
    have h2 : ¬ (0.2 : ℚ) < polarity := by linarith
    simp only [gt_iff_lt, if_neg h2, if_pos h]
  · intro h1 h2
    have h3 : ¬ (0.2 : ℚ) < polarity := not_lt.mpr h2
    have h4 : ¬ polarity < (-0.1 : ℚ) := not_lt.mpr h1
    simp only [gt_iff_lt, if_neg h3, if_neg h4]

/-- Witness for C1: a polarity of exactly 0.2 is labelled Neutral. -/
theorem add_feedback_sentiment_thresholds_witness :
    ∃ fb ev rid A,
      add_feedback (some ⟨some "web", some "ok", none⟩) 0.2 ["Speed"] [1] [] 7 0
        = some ([] ++ [fb], ev, rid, A)
      ∧ fb.sentiment = some "Neutral" ∧ fb.sentiment_score = some 0.2 := by
  obtain ⟨fb, ev, rid, A, h1, h2, _, _, _, hneu⟩ :=
    add_feedback_sentiment_thresholds "web" "ok" none 0.2 "Speed" [] 1 [] [] 7 0
  exact ⟨fb, ev, rid, A, h1, hneu (by norm_num) (by norm_num), h2⟩

/-- C9: whenever the classifier honours its contract (its `labels` list
ranks exactly the fixed candidate set, with one score per label), the
category stored on the created item and returned in the response is a
member of that candidate set. -/
theorem add_feedback_category_in_candidates (pf tx : String) (sid : Option Int)
    (polarity : ℚ) (clsLabels : List String) (clsScores : List ℚ)
    (db : List Feedback) (newId : Nat) (now : ℚ)
    (hperm : clsLabels.Perm candidate_labels)
    (hlen : clsScores.length = clsLabels.length) :
    ∃ fb ev rid A,
      add_feedback (some ⟨some pf, some tx, sid⟩) polarity clsLabels clsScores db newId now
        = some (db ++ [fb], ev, rid, A)
      ∧ fb.category = some A.category
      ∧ A.category ∈ candidate_labels := by
  obtain ⟨l, ll', rfl⟩ : ∃ l ll', clsLabels = l :: ll' := by
    cases clsLabels with
    | nil =>
      have := hperm.length_eq
      simp [candidate_labels] at this
    | cons a t => exact ⟨a, t, rfl⟩
  obtain ⟨c, cs, rfl⟩ : ∃ c cs, clsScores = c :: cs := by
    cases clsScores with
    | nil => simp at hlen
    | cons a t => exact ⟨a, t, rfl⟩
  refine ⟨_, _, _, _, rfl, rfl, ?_⟩
  exact hperm.mem_iff.mp (List.mem_cons_self l ll')

/-- Witness for C9 with the classifier returning the candidate set itself. -/
theorem add_feedback_category_in_candidates_witness :
    ∃ fb ev rid A,
      add_feedback (some ⟨some "web", some "great", none⟩) 1
          candidate_labels [0.9, 0.05, 0.03, 0.02] [] 1 0
        = some ([] ++ [fb], ev, rid, A)
      ∧ fb.category = some A.category
      ∧ A.category ∈ candidate_labels :=
  add_feedback_category_in_candidates "web" "great" none 1 candidate_labels
    [0.9, 0.05, 0.03, 0.02] [] 1 0 (List.Perm.refl _) (by simp [candidate_labels])

/-- A string that parses as a date is nonempty, hence truthy. -/
theorem getTruthy_of_parse (s : String) (d : Date)
    (hs : parseDateYMD s = some d) : getTruthy (some s) = some s := by
  have hne : s ≠ "" := by
    intro h
    rw [h, show parseDateYMD "" = none from by decide] at hs
    exact Option.noConfusion hs
  simp [getTruthy, hne]

/-- The last two stages of the builder never fail. -/
theorem applyStatus_isSome (p : QueryParams) (q : List Feedback → List Feedback) :
    ∃ q', applyStatus p q = some q' := by
  unfold applyStatus
  cases getTruthy p.status with
  | none => exact ⟨q, rfl⟩
  | some st => exact ⟨_, rfl⟩

/-- A truthy, non-integer `store_id` aborts the store stage. -/
theorem applyStore_none_of_bad (p : QueryParams) (s : String)
    (h1 : getTruthy p.store_id = some s) (h2 : parsePyInt s = none)
    (q : List Feedback → List Feedback) : applyStore p q = none := by
  simp only [applyStore, h1, h2]

/-- A truthy, non-integer `store_id` aborts the end stage wherever the
end parameter leads. -/
theorem applyEnd_none_of_store_bad (p : QueryParams) (s : String)
    (h1 : getTruthy p.store_id = some s) (h2 : parsePyInt s = none)
    (q : List Feedback → List Feedback) : applyEnd p q = none := by
  cases hge : getTruthy p.end_ with
  | none =>
    simp only [applyEnd, hge]
    exact applyStore_none_of_bad p s h1 h2 q
  | some t =>
    cases hpt : parseDateYMD t with
    | none => simp only [applyEnd, hge, hpt]
    | some d =>
      simp only [applyEnd, hge, hpt]
      exact applyStore_none_of_bad p s h1 h2 _

/-- A truthy, malformed `end` date aborts the end stage. -/
theorem applyEnd_none_of_end_bad (p : QueryParams) (s : String)
    (h1 : getTruthy p.end_ = some s) (h2 : parseDateYMD s = none)
    (q : List Feedback → List Feedback) : applyEnd p q = none := by
  simp only [applyEnd, h1, h2]

/-- Propagation of either failure through the start stage. -/
theorem applyStart_none_of_later_bad (p : QueryParams)
    (hbad : ∀ q, applyEnd p q = none)
    (q : List Feedback → List Feedback) : applyStart p q = none := by
  cases hgs : getTruthy p.start with
  | none =>
    simp only [applyStart, hgs]
    exact hbad q
  | some t =>
    cases hpt : parseDateYMD t with
    | none => simp only [applyStart, hgs, hpt]
    | some d =>
      simp only [applyStart, hgs, hpt]
      exact hbad _

/-- A truthy, malformed `start` date aborts the start stage. -/
theorem applyStart_none_of_start_bad (p : QueryParams) (s : String)
    (h1 : getTruthy p.start = some s) (h2 : parseDateYMD s = none)
    (q : List Feedback → List Feedback) : applyStart p q = none := by
  simp only [applyStart, h1, h2]

/-- A failed build makes all three read endpoints fail. -/
theorem endpoints_none_of_build_none (stores : List Store) (db : List Feedback)
    (p : QueryParams) (h : build_filtered_query stores p = none) :
    get_feedback stores db p = none ∧ get_metrics stores db p = none
      ∧ get_metrics_trend stores db p = none := by
  refine ⟨?_, ?_, ?_⟩ <;> simp [get_feedback, get_metrics, get_metrics_trend, h]

/-- C3: on every read endpoint, a truthy `start` or `end` that is not a
well-formed `YYYY-MM-DD` date, or a truthy `store_id` that is not an
integer literal, fails the whole operation — the endpoint returns the
validation error (`none`) and no result set, whatever the other
parameters are. -/
theorem read_endpoints_fail_on_malformed_params (stores : List Store)
    (db : List Feedback) (p : QueryParams) :
    (∀ s, getTruthy p.start = some s → parseDateYMD s = none →
       get_feedback stores db p = none ∧ get_metrics stores db p = none
         ∧ get_metrics_trend stores db p = none)
    ∧ (∀ s, getTruthy p.end_ = some s → parseDateYMD s = none →
       get_feedback stores db p = none ∧ get_metrics stores db p = none
         ∧ get_metrics_trend stores db p = none)
    ∧ (∀ s, getTruthy p.store_id = some s → parsePyInt s = none →
       get_feedback stores db p = none ∧ get_metrics stores db p = none
         ∧ get_metrics_trend stores db p = none) := by
  refine ⟨?_, ?_, ?_⟩
  · intro s h1 h2
    exact endpoints_none_of_build_none stores db p
      (applyStart_none_of_start_bad p s h1 h2 _)
  · intro s h1 h2
    exact endpoints_none_of_build_none stores db p
      (applyStart_none_of_later_bad p (applyEnd_none_of_end_bad p s h1 h2) _)
  · intro s h1 h2
    exact endpoints_none_of_build_none stores db p
      (applyStart_none_of_later_bad p (applyEnd_none_of_store_bad p s h1 h2) _)

/-- Witness for C3 on the spec's own example `start=not-a-date`. -/
theorem read_endpoints_fail_on_malformed_params_witness :
    get_feedback [] [] ⟨some "not-a-date", none, none, none, none⟩ = none
    ∧ get_metrics [] [] ⟨some "not-a-date", none, none, none, none⟩ = none
    ∧ get_metrics_trend [] [] ⟨some "not-a-date", none, none, none, none⟩ = none :=
  (read_endpoints_fail_on_malformed_params [] []
      ⟨some "not-a-date", none, none, none, none⟩).1
    "not-a-date" (by decide) (by decide)

/-- An absent parameter is falsy. -/
theorem getTruthy_none : getTruthy none = none := rfl

/-- The empty string is falsy, like an absent parameter. -/
theorem getTruthy_empty : getTruthy (some "") = none := by
  simp [getTruthy]

/-- Midnight after `d` is midnight of `d` plus one day of seconds. -/
theorem nextDaySecs_eq (d : Date) : nextDaySecs d = dateSecs d + 86400 := by
  unfold nextDaySecs dateSecs
  ring

/-- C2: with well-formed `start` and/or `end` parameters (and no other
filter), the built filter keeps exactly the feedback whose timestamp
lies in the half-open interval from `start` 00:00:00 (inclusive) to
`end + 1 day` 00:00:00 (exclusive); each bound alone acts one-sidedly the
same way. -/
theorem build_filtered_query_date_range (stores : List Store) (db : List Feedback)
    (s e : String) (ds de : Date)
    (hs : parseDateYMD s = some ds) (he : parseDateYMD e = some de) :
    (∃ q, build_filtered_query stores ⟨some s, some e, none, none, none⟩ = some q
       ∧ ∀ f, f ∈ q db ↔ f ∈ db ∧ dateSecs ds ≤ f.timestamp
           ∧ f.timestamp < dateSecs de + 86400)
    ∧ (∃ q, build_filtered_query stores ⟨some s, none, none, none, none⟩ = some q
       ∧ ∀ f, f ∈ q db ↔ f ∈ db ∧ dateSecs ds ≤ f.timestamp)
    ∧ (∃ q, build_filtered_query stores ⟨none, some e, none, none, none⟩ = some q
       ∧ ∀ f, f ∈ q db ↔ f ∈ db ∧ f.timestamp < dateSecs de + 86400) := by
  have hgs := getTruthy_of_parse s ds hs
  have hge := getTruthy_of_parse e de he
  have hb1 : build_filtered_query stores ⟨some s, some e, none, none, none⟩
      = some (fun fs =>
          (fs.filter (fun f => decide (dateSecs ds ≤ f.timestamp))).filter
            (fun f => decide (f.timestamp < nextDaySecs de))) := by
    simp only [build_filtered_query, applyStart, applyEnd, applyStore, applyStatus,
      getTruthy_none, hgs, hge, hs, he]
  have hb2 : build_filtered_query stores ⟨some s, none, none, none, none⟩
      = some (fun fs => fs.filter (fun f => decide (dateSecs ds ≤ f.timestamp))) := by
    simp only [build_filtered_query, applyStart, applyEnd, applyStore, applyStatus,
      getTruthy_none, hgs, hs]
  have hb3 : build_filtered_query stores ⟨none, some e, none, none, none⟩
      = some (fun fs => fs.filter (fun f => decide (f.timestamp < nextDaySecs de))) := by
    simp only [build_filtered_query, applyStart, applyEnd, applyStore, applyStatus,
      getTruthy_none, hge, he]
  refine ⟨⟨_, hb1, ?_⟩, ⟨_, hb2, ?_⟩, ⟨_, hb3, ?_⟩⟩
  · intro f
    simp only [List.mem_filter, decide_eq_true_eq, nextDaySecs_eq, and_assoc]
  · intro f
    simp only [List.mem_filter, decide_eq_true_eq]
  · intro f
    simp only [List.mem_filter, decide_eq_true_eq, nextDaySecs_eq]

/-- Witness for C2 at the spec's example `start=2024-01-01&end=2024-01-01`. -/
theorem build_filtered_query_date_range_witness :
    (∃ q, build_filtered_query []
        ⟨some "2024-01-01", some "2024-01-01", none, none, none⟩ = some q
      ∧ ∀ f, f ∈ q [] ↔ f ∈ ([] : List Feedback)
          ∧ dateSecs ⟨2024, 1, 1⟩ ≤ f.timestamp
          ∧ f.timestamp < dateSecs ⟨2024, 1, 1⟩ + 86400)
    ∧ (∃ q, build_filtered_query []
        ⟨some "2024-01-01", none, none, none, none⟩ = some q
      ∧ ∀ f, f ∈ q [] ↔ f ∈ ([] : List Feedback) ∧ dateSecs ⟨2024, 1, 1⟩ ≤ f.timestamp)
    ∧ (∃ q, build_filtered_query []
        ⟨none, some "2024-01-01", none, none, none⟩ = some q
      ∧ ∀ f, f ∈ q [] ↔ f ∈ ([] : List Feedback)
          ∧ f.timestamp < dateSecs ⟨2024, 1, 1⟩ + 86400) :=
  build_filtered_query_date_range [] [] "2024-01-01" "2024-01-01"
    ⟨2024, 1, 1⟩ ⟨2024, 1, 1⟩ (by decide) (by decide)

/-- C10: presence of a filter parameter is tested by string truthiness,
so every read operation treats an empty-string parameter exactly like an
absent one — the builder and all three read endpoints depend on the
parameters only through their truthy values, and with every parameter
empty the operation succeeds and imposes no constraint at all. -/
theorem empty_param_as_absent (stores : List Store) (db : List Feedback)
    (p p' : QueryParams)
    (h1 : getTruthy p.start = getTruthy p'.start)
    (h2 : getTruthy p.end_ = getTruthy p'.end_)
    (h3 : getTruthy p.store_id = getTruthy p'.store_id)
    (h4 : getTruthy p.area = getTruthy p'.area)
    (h5 : getTruthy p.status = getTruthy p'.status) :
    (build_filtered_query stores p = build_filtered_query stores p'
     ∧ get_feedback stores db p = get_feedback stores db p'
     ∧ get_metrics stores db p = get_metrics stores db p'
     ∧ get_metrics_trend stores db p = get_metrics_trend stores db p')
    ∧ (∃ q, build_filtered_query stores
         ⟨some "", some "", some "", some "", some ""⟩ = some q
       ∧ ∀ f, f ∈ q db ↔ f ∈ db) := by
  have hb : build_filtered_query stores p = build_filtered_query stores p' := by
    unfold build_filtered_query applyStart applyEnd applyStore applyStatus
    rw [h1, h2, h3, h4, h5]
  refine ⟨⟨hb, ?_, ?_, ?_⟩, ?_⟩
  · simp only [get_feedback, hb]
  · simp only [get_metrics, hb]
  · simp only [get_metrics_trend, hb]
  · have hempty : build_filtered_query stores
        ⟨some "", some "", some "", some "", some ""⟩
        = some (fun fs => fs) := by
      simp only [build_filtered_query, applyStart, applyEnd, applyStore, applyStatus,
        getTruthy_empty]
    exact ⟨_, hempty, fun f => Iff.rfl⟩

/-- Witness for C10: `start=""` behaves like no `start` at all. -/
theorem empty_param_as_absent_witness :
    (build_filtered_query [] ⟨some "", none, none, none, none⟩
       = build_filtered_query [] ⟨none, none, none, none, none⟩
     ∧ get_feedback [] [] ⟨some "", none, none, none, none⟩
       = get_feedback [] [] ⟨none, none, none, none, none⟩
     ∧ get_metrics [] [] ⟨some "", none, none, none, none⟩
       = get_metrics [] [] ⟨none, none, none, none, none⟩
     ∧ get_metrics_trend [] [] ⟨some "", none, none, none, none⟩
       = get_metrics_trend [] [] ⟨none, none, none, none, none⟩)
    ∧ (∃ q, build_filtered_query []
         ⟨some "", some "", some "", some "", some ""⟩ = some q
       ∧ ∀ f, f ∈ q ([] : List Feedback) ↔ f ∈ ([] : List Feedback)) :=
  empty_param_as_absent [] [] ⟨some "", none, none, none, none⟩
    ⟨none, none, none, none, none⟩ (by decide) rfl rfl rfl rfl

/-- When no score is NULL, the non-null scores of a group are in
bijection with its rows. -/
theorem length_filterMap_scores (l : List Feedback)
    (h : ∀ f ∈ l, f.sentiment_score ≠ none) :
    (l.filterMap Feedback.sentiment_score).length = l.length := by
  induction l with
  | nil => rfl
  | cons f fs ih =>
    have hf := h f (List.mem_cons_self f fs)
    cases hsc : f.sentiment_score with
    | none => exact absurd hsc hf
    | some v =>
      simp only [List.filterMap_cons, hsc, List.length_cons]
      rw [ih (fun g hg => h g (List.mem_cons_of_mem f hg))]

/-- On a NULL-free group, SQL `AVG` is the sum of the scores divided by
the number of rows. -/
theorem sqlAvg_all_some (g : List Feedback)
    (h : ∀ f ∈ g, f.sentiment_score ≠ none) (hne : g ≠ []) :
    sqlAvg (g.map Feedback.sentiment_score)
      = some ((g.filterMap Feedback.sentiment_score).sum / (g.length : ℚ)) := by
  have hfm : (g.map Feedback.sentiment_score).filterMap id
      = g.filterMap Feedback.sentiment_score := by
    rw [List.filterMap_map]
    simp
  have hlen : (g.filterMap Feedback.sentiment_score).length = g.length :=
    length_filterMap_scores g h
  have hpos : ¬ ((g.map Feedback.sentiment_score).filterMap id).length = 0 := by
    rw [hfm, hlen]
    simpa using hne
  simp only [sqlAvg, if_neg hpos, hfm, hlen]
  rw [if_neg (fun hzero => hne (List.length_eq_zero.mp hzero))]

/-- The group keys of the category aggregate are the distinct category
values of the view. -/
theorem keys_category_metrics (view : List Feedback) :
    (category_metrics view).map (fun r => r.1) = (view.map Feedback.category).dedup := by
  unfold category_metrics
  rw [List.map_map]
  have : ((fun (r : Option String × Nat × Option ℚ) => r.1) ∘ fun c =>
      (c, (view.filter (fun f => f.category == c)).length,
        sqlAvg ((view.filter (fun f => f.category == c)).map Feedback.sentiment_score)))
      = fun c => c := rfl
  rw [this, List.map_id']

/-- C4: the metrics aggregation reports `feedback_by_category` keyed by
exactly the distinct categories that occur in the filtered view (no
zero-filled entries), each with the number of records of that category
and the arithmetic mean of their `sentiment_score` values. -/
theorem get_metrics_by_category_correct (stores : List Store) (db : List Feedback)
    (p : QueryParams) (q : List Feedback → List Feedback)
    (hq : build_filtered_query stores p = some q)
    (hwf : ∀ f ∈ q db, f.sentiment_score ≠ none) :
    ∃ M, get_metrics stores db p = some M
      ∧ (M.feedback_by_category.map (fun r => r.1)).Nodup
      ∧ (∀ c, c ∈ M.feedback_by_category.map (fun r => r.1)
            ↔ ∃ f ∈ q db, f.category = c)
      ∧ (∀ c n a, (c, n, a) ∈ M.feedback_by_category →
           n = ((q db).filter (fun f => f.category == c)).length
           ∧ 0 < n
           ∧ a = some ((((q db).filter (fun f => f.category == c)).filterMap
                 Feedback.sentiment_score).sum / (n : ℚ))) := by
  have hM : get_metrics stores db p = some
      { total_feedback := (q db).length,
        feedback_by_sentiment := feedback_by_sentiment (q db),
        feedback_by_category := category_metrics (q db) } := by
    simp [get_metrics, hq]
  refine ⟨_, hM, ?_, ?_, ?_⟩
  · rw [keys_category_metrics]
    exact List.nodup_dedup _
  · intro c
    rw [keys_category_metrics, List.mem_dedup, List.mem_map]
  · intro c n a hmem
    simp only [category_metrics, List.mem_map] at hmem
    obtain ⟨c', hc', heq⟩ := hmem
    obtain ⟨rfl, rfl, rfl⟩ : c' = c
        ∧ n = ((q db).filter (fun f => f.category == c')).length
        ∧ a = sqlAvg (((q db).filter (fun f => f.category == c')).map
            Feedback.sentiment_score) := by
      have h1 := congrArg Prod.fst heq
      have h2 := congrArg (fun r => r.2.1) heq
      have h3 := congrArg (fun r => r.2.2) heq
      simp only at h1 h2 h3
      exact ⟨h1, h2.symm, h3.symm⟩
    have hocc : ∃ f ∈ q db, f.category = c' :=
      List.mem_map.mp (List.mem_dedup.mp hc')
    obtain ⟨f0, hf0, hfc⟩ := hocc
    have hf0g : f0 ∈ (q db).filter (fun f => f.category == c') := by
      rw [List.mem_filter]
      exact ⟨hf0, by simp [hfc]⟩
    have hne : (q db).filter (fun f => f.category == c') ≠ [] :=
      List.ne_nil_of_mem hf0g
    have hg : ∀ f ∈ (q db).filter (fun f => f.category == c'),
        f.sentiment_score ≠ none := by
      intro f hf
      exact hwf f (List.mem_filter.mp hf).1
    refine ⟨rfl, ?_, ?_⟩
    · exact List.length_pos.mpr hne
    · exact sqlAvg_all_some _ hg hne

/-- Three rows in category Speed with scores 0.5, -0.5, 0.0 (§8's
aggregation example). -/
def speedRows : List Feedback :=
  [{ id := 1, platform := "web", text := "fast", timestamp := 0,
     category := some "Speed", sentiment := some "Positive",
     sentiment_score := some 0.5, store_id := none, status := "New" },
   { id := 2, platform := "web", text := "slow", timestamp := 0,
     category := some "Speed", sentiment := some "Negative",
     sentiment_score := some (-0.5), store_id := none, status := "New" },
   { id := 3, platform := "web", text := "meh", timestamp := 0,
     category := some "Speed", sentiment := some "Neutral",
     sentiment_score := some 0, store_id := none, status := "New" }]

/-- Witness for C4 on the unfiltered view of `speedRows`. -/
theorem get_metrics_by_category_correct_witness :
    ∃ M, get_metrics [] speedRows ⟨none, none, none, none, none⟩ = some M
      ∧ (M.feedback_by_category.map (fun r => r.1)).Nodup
      ∧ (∀ c, c ∈ M.feedback_by_category.map (fun r => r.1)
            ↔ ∃ f ∈ speedRows, f.category = c)
      ∧ (∀ c n a, (c, n, a) ∈ M.feedback_by_category →
           n = (speedRows.filter (fun f => f.category == c)).length
           ∧ 0 < n
           ∧ a = some (((speedRows.filter (fun f => f.category == c)).filterMap
                 Feedback.sentiment_score).sum / (n : ℚ))) :=
  get_metrics_by_category_correct [] speedRows ⟨none, none, none, none, none⟩
    (fun fs => fs)
    (by simp only [build_filtered_query, applyStart, applyEnd, applyStore,
      applyStatus, getTruthy_none])
    (by decide)

/-- A dictionary update step never changes the key list. -/
theorem keys_applySentimentRow (m : List (String × Nat)) (row : Option String × Nat) :
    (applySentimentRow m row).map Prod.fst = m.map Prod.fst := by
  obtain ⟨s?, cnt⟩ := row
  cases s? with
  | none => rfl
  | some s =>
    simp only [applySentimentRow]
    by_cases h : m.any (fun q => q.1 == s) = true
    · simp only [if_pos h, List.map_map]
      apply List.map_congr_left
      intro q _
      simp only [Function.comp_apply]
      split <;> rfl
    · simp [h]

/-- Folding dictionary updates never changes the key list. -/
theorem keys_fold_sentiment (L : List (Option String × Nat))
    (m : List (String × Nat)) :
    (L.foldl applySentimentRow m).map Prod.fst = m.map Prod.fst := by
  induction L generalizing m with
  | nil => rfl
  | cons row L ih => rw [List.foldl_cons, ih, keys_applySentimentRow]

/-- Membership of a key among the entries, read off the key list. -/
theorem any_key_eq (m : List (String × Nat)) (k : String) :
    m.any (fun q => q.1 == k) = (m.map Prod.fst).any (fun x => x == k) := by
  induction m with
  | nil => rfl
  | cons q m ih => simp only [List.any_cons, List.map_cons, ih]

/-- A dictionary update step keeps key membership. -/
theorem any_key_applySentimentRow (m : List (String × Nat))
    (row : Option String × Nat) (k : String) :
    (applySentimentRow m row).any (fun q => q.1 == k) = m.any (fun q => q.1 == k) := by
  rw [any_key_eq, any_key_eq, keys_applySentimentRow]

/-- Writing value `cnt` at key `s` leaves every other key's lookup alone. -/
theorem lookup_update_ne (m : List (String × Nat)) (s : String) (cnt : Nat)
    (k : String) (hk : k ≠ s) :
    (m.map (fun q => if q.1 == s then (q.1, cnt) else q)).lookup k = m.lookup k := by
  induction m with
  | nil => rfl
  | cons q m ih =>
    obtain ⟨a, v⟩ := q
    simp only [List.map_cons]
    by_cases ha : a = s
    · have hb : (a == s) = true := by simpa using ha
      rw [if_pos hb, List.lookup_cons, List.lookup_cons]
      have hk2 : (k == a) = false := by
        have hne : k ≠ a := by rw [ha]; exact hk
        simpa using hne
      simp only [hk2]
      exact ih
    · have hb : ¬ ((a == s) = true) := by simpa using ha
      rw [if_neg hb, List.lookup_cons, List.lookup_cons]
      cases hka : k == a with
      | false => simp only [hka]; exact ih
      | true => simp only [hka]

/-- Writing value `cnt` at a key present in the dictionary makes its
lookup read `cnt`. -/
theorem lookup_update_eq (m : List (String × Nat)) (s : String) (cnt : Nat)
    (hin : m.any (fun q => q.1 == s) = true) :
    (m.map (fun q => if q.1 == s then (q.1, cnt) else q)).lookup s = some cnt := by
  induction m with
  | nil => simp at hin
  | cons q m ih =>
    obtain ⟨a, v⟩ := q
    simp only [List.map_cons]
    by_cases ha : a = s
    · have hb : (a == s) = true := by simpa using ha
      have hsa : (s == a) = true := by simp [ha]
      rw [if_pos hb, List.lookup_cons]
      simp only [hsa]
    · have hb : ¬ ((a == s) = true) := by simpa using ha
      have hsa : (s == a) = false := by
        have hne : s ≠ a := fun hcon => ha hcon.symm
        simpa using hne
      have hin' : m.any (fun q => q.1 == s) = true := by
        simp only [List.any_cons, Bool.or_eq_true] at hin
        rcases hin with h | h
        · exact absurd h (by simpa using ha)
        · exact h
      rw [if_neg hb, List.lookup_cons]
      simp only [hsa]
      exact ih hin'

/-- Group rows whose key is not `some k` leave the lookup of `k` alone. -/
theorem lookup_fold_untouched (L : List (Option String × Nat)) (k : String)
    (h : ∀ row ∈ L, row.1 ≠ some k) (m : List (String × Nat)) :
    (L.foldl applySentimentRow m).lookup k = m.lookup k := by
  induction L generalizing m with
  | nil => rfl
  | cons row L ih =>
    rw [List.foldl_cons, ih (fun r hr => h r (List.mem_cons_of_mem row hr))]
    obtain ⟨s?, cnt⟩ := row
    cases s? with
    | none => rfl
    | some s =>
      have hs : s ≠ k := by
        have := h (some s, cnt) (List.mem_cons_self _ L)
        simpa using this
      simp only [applySentimentRow]
      by_cases hany : m.any (fun q => q.1 == s) = true
      · rw [if_pos hany]
        exact lookup_update_ne m s cnt k (fun hcon => hs hcon.symm)
      · rw [if_neg hany]

/-- If the group rows carry one row per key and `(some k, n)` is among
them, and `k` is a key of the dictionary, folding the updates makes the
lookup of `k` read `n`. -/
theorem lookup_fold_hit (L : List (Option String × Nat)) (k : String) (n : Nat)
    (m : List (String × Nat))
    (hL : (some k, n) ∈ L)
    (hnd : (L.map Prod.fst).Nodup)
    (hin : m.any (fun q => q.1 == k) = true) :
    (L.foldl applySentimentRow m).lookup k = some n := by
  induction L generalizing m with
  | nil => simp at hL
  | cons row L ih =>
    rw [List.foldl_cons]
    rcases List.mem_cons.mp hL with heq | htail
    · rw [← heq] at hnd ⊢
      rw [List.map_cons] at hnd
      have hnotmem := (List.nodup_cons.mp hnd).1
      have hnot : ∀ r ∈ L, r.1 ≠ some k := by
        intro r hr hcon
        have hmem : r.1 ∈ L.map Prod.fst := List.mem_map_of_mem Prod.fst hr
        rw [hcon] at hmem
        exact hnotmem hmem
      rw [lookup_fold_untouched L k hnot]
      simp only [applySentimentRow]
      rw [if_pos hin]
      exact lookup_update_eq m k n hin
    · have hnd' : (L.map Prod.fst).Nodup := by
        rw [List.map_cons] at hnd
        exact (List.nodup_cons.mp hnd).2
      have hin' : (applySentimentRow m row).any (fun q => q.1 == k) = true := by
        rw [any_key_applySentimentRow]
        exact hin
      exact ih _ htail hnd' hin'

/-- The group keys of the sentiment aggregate are the distinct sentiment
values of the view. -/
theorem keys_sentiment_counts (view : List Feedback) :
    (sentiment_counts view).map Prod.fst = (view.map Feedback.sentiment).dedup := by
  unfold sentiment_counts
  rw [List.map_map]
  have hcomp : (Prod.fst ∘ fun s =>
      (s, (view.filter (fun f => f.sentiment == s)).length)) = fun s : Option String => s := rfl
  rw [hcomp, List.map_id']

/-- The dictionary built by `get_metrics` reads, at any of its keys, the
number of view rows carrying that sentiment. -/
theorem lookup_feedback_by_sentiment (view : List Feedback) (k : String)
    (hin : ([("Positive", 0), ("Negative", 0), ("Neutral", 0)]
        : List (String × Nat)).any (fun q => q.1 == k) = true)
    (hlook : ([("Positive", 0), ("Negative", 0), ("Neutral", 0)]
        : List (String × Nat)).lookup k = some 0) :
    (feedback_by_sentiment view).lookup k
      = some ((view.filter (fun f => f.sentiment == some k)).length) := by
  unfold feedback_by_sentiment
  by_cases hc : some k ∈ (view.map Feedback.sentiment).dedup
  · have hL : (some k, (view.filter (fun f => f.sentiment == some k)).length)
        ∈ sentiment_counts view := by
      unfold sentiment_counts
      exact List.mem_map_of_mem _ hc
    have hnd : ((sentiment_counts view).map Prod.fst).Nodup := by
      rw [keys_sentiment_counts]
      exact List.nodup_dedup _
    exact lookup_fold_hit (sentiment_counts view) k _ _ hL hnd hin
  · have hnot : ∀ row ∈ sentiment_counts view, row.1 ≠ some k := by
      intro row hrow hcon
      unfold sentiment_counts at hrow
      obtain ⟨s', hs', heq⟩ := List.mem_map.mp hrow
      apply hc
      rw [← hcon, ← heq]
      exact hs'
    rw [lookup_fold_untouched (sentiment_counts view) k hnot _, hlook]
    have hzero : (view.filter (fun f => f.sentiment == some k)).length = 0 := by
      rw [List.length_eq_zero, List.filter_eq_nil_iff]
      intro f hf hb
      apply hc
      rw [List.mem_dedup, List.mem_map]
      exact ⟨f, hf, by simpa using hb⟩
    rw [hzero]

/-- C5: for every filtered view, the empty one included, the sentiment
map of the metrics response carries exactly the three fixed keys
Positive, Negative, Neutral, each reading the number of matching records
with that sentiment (0 when none matches). -/
theorem get_metrics_by_sentiment_three_keys (stores : List Store)
    (db : List Feedback) (p : QueryParams) (q : List Feedback → List Feedback)
    (hq : build_filtered_query stores p = some q) :
    ∃ M, get_metrics stores db p = some M
      ∧ M.feedback_by_sentiment.map Prod.fst = ["Positive", "Negative", "Neutral"]
      ∧ ∀ k ∈ (["Positive", "Negative", "Neutral"] : List String),
          M.feedback_by_sentiment.lookup k
            = some ((q db).filter (fun f => f.sentiment == some k)).length := by
  have hM : get_metrics stores db p = some
      { total_feedback := (q db).length,
        feedback_by_sentiment := feedback_by_sentiment (q db),
        feedback_by_category := category_metrics (q db) } := by
    simp [get_metrics, hq]
  refine ⟨_, hM, ?_, ?_⟩
  · show (feedback_by_sentiment (q db)).map Prod.fst = _
    unfold feedback_by_sentiment
    rw [keys_fold_sentiment]
    rfl
  · intro k hk
    have hk3 : k = "Positive" ∨ k = "Negative" ∨ k = "Neutral" := by simpa using hk
    rcases hk3 with rfl | rfl | rfl
    · exact lookup_feedback_by_sentiment (q db) "Positive" (by decide) (by decide)
    · exact lookup_feedback_by_sentiment (q db) "Negative" (by decide) (by decide)
    · exact lookup_feedback_by_sentiment (q db) "Neutral" (by decide) (by decide)

/-- Witness for C5 on the empty view. -/
theorem get_metrics_by_sentiment_three_keys_witness :
    ∃ M, get_metrics [] [] ⟨none, none, none, none, none⟩ = some M
      ∧ M.feedback_by_sentiment.map Prod.fst = ["Positive", "Negative", "Neutral"]
      ∧ ∀ k ∈ (["Positive", "Negative", "Neutral"] : List String),
          M.feedback_by_sentiment.lookup k
            = some (([] : List Feedback).filter (fun f => f.sentiment == some k)).length :=
  get_metrics_by_sentiment_three_keys [] [] ⟨none, none, none, none, none⟩
    (fun fs => fs)
    (by simp only [build_filtered_query, applyStart, applyEnd, applyStore,
      applyStatus, getTruthy_none])

/-- The row keys of the trend are the distinct days, sorted. -/
theorem keys_daily_trend (view : List Feedback) :
    (daily_trend view).map Prod.fst
      = List.insertionSort (fun a b => a ≤ b)
          ((view.map (fun f => dayOf f.timestamp)).dedup) := by
  unfold daily_trend
  rw [List.map_map]
  have hcomp : (Prod.fst ∘ fun d =>
      (d, sqlAvg ((view.filter (fun f => dayOf f.timestamp == d)).map
        Feedback.sentiment_score))) = fun d : Int => d := rfl
  rw [hcomp, List.map_id']

/-- C6: the trend endpoint returns one `(day, average)` row per distinct
calendar day present in the filtered view — no gap-filling — sorted
strictly ascending by day, the value being the arithmetic mean of that
day's `sentiment_score` values. -/
theorem get_metrics_trend_daily (stores : List Store) (db : List Feedback)
    (p : QueryParams) (q : List Feedback → List Feedback)
    (hq : build_filtered_query stores p = some q)
    (hwf : ∀ f ∈ q db, f.sentiment_score ≠ none) :
    ∃ T, get_metrics_trend stores db p = some T
      ∧ (T.map Prod.fst).Sorted (· < ·)
      ∧ (∀ d : Int, d ∈ T.map Prod.fst ↔ ∃ f ∈ q db, dayOf f.timestamp = d)
      ∧ (∀ d a, (d, a) ∈ T →
          a = some ((((q db).filter (fun f => dayOf f.timestamp == d)).filterMap
              Feedback.sentiment_score).sum
            / ((((q db).filter (fun f => dayOf f.timestamp == d)).length : ℚ)))) := by
  have hT : get_metrics_trend stores db p = some (daily_trend (q db)) := by
    simp [get_metrics_trend, hq]
  refine ⟨_, hT, ?_, ?_, ?_⟩
  · rw [keys_daily_trend]
    have hsorted : List.Sorted (fun a b : Int => a ≤ b)
        (List.insertionSort (fun a b => a ≤ b)
          (((q db).map (fun f => dayOf f.timestamp)).dedup)) :=
      List.sorted_insertionSort _ _
    have hnodup : (List.insertionSort (fun a b : Int => a ≤ b)
        (((q db).map (fun f => dayOf f.timestamp)).dedup)).Nodup :=
      (List.perm_insertionSort _ _).nodup_iff.mpr (List.nodup_dedup _)
    exact (List.Pairwise.and hsorted hnodup).imp
      (fun hab => lt_of_le_of_ne hab.1 hab.2)
  · intro d
    rw [keys_daily_trend, (List.perm_insertionSort _ _).mem_iff,
      List.mem_dedup, List.mem_map]
  · intro d a hmem
    unfold daily_trend at hmem
    obtain ⟨d', hd', heq⟩ := List.mem_map.mp hmem
    obtain ⟨rfl, rfl⟩ : d' = d ∧ a = sqlAvg (((q db).filter
        (fun f => dayOf f.timestamp == d')).map Feedback.sentiment_score) := by
      have h1 := congrArg Prod.fst heq
      have h2 := congrArg Prod.snd heq
      simp only at h1 h2
      exact ⟨h1, h2.symm⟩
    have hocc : ∃ f ∈ q db, dayOf f.timestamp = d' := by
      rw [(List.perm_insertionSort _ _).mem_iff, List.mem_dedup, List.mem_map] at hd'
      exact hd'
    obtain ⟨f0, hf0, hfd⟩ := hocc
    have hf0g : f0 ∈ (q db).filter (fun f => dayOf f.timestamp == d') := by
      rw [List.mem_filter]
      exact ⟨hf0, by simp [hfd]⟩
    have hne : (q db).filter (fun f => dayOf f.timestamp == d') ≠ [] :=
      List.ne_nil_of_mem hf0g
    have hg : ∀ f ∈ (q db).filter (fun f => dayOf f.timestamp == d'),
        f.sentiment_score ≠ none := by
      intro f hf
      exact hwf f (List.mem_filter.mp hf).1
    rw [sqlAvg_all_some _ hg hne]

/-- A single concrete row for the C6 witness. -/
def trendRow : Feedback :=
  { id := 1, platform := "web", text := "ok", timestamp := 3600,
    category := some "Speed", sentiment := some "Neutral",
    sentiment_score := some 0, store_id := none, status := "New" }

/-- Witness for C6 on a one-row view. -/
theorem get_metrics_trend_daily_witness :
    ∃ T, get_metrics_trend [] [trendRow] ⟨none, none, none, none, none⟩ = some T
      ∧ (T.map Prod.fst).Sorted (· < ·)
      ∧ (∀ d : Int, d ∈ T.map Prod.fst ↔ ∃ f ∈ [trendRow], dayOf f.timestamp = d)
      ∧ (∀ d a, (d, a) ∈ T →
          a = some ((([trendRow].filter (fun f => dayOf f.timestamp == d)).filterMap
              Feedback.sentiment_score).sum
            / ((([trendRow].filter (fun f => dayOf f.timestamp == d)).length : ℚ)))) :=
  get_metrics_trend_daily [] [trendRow] ⟨none, none, none, none, none⟩ (fun fs => fs)
    (by simp only [build_filtered_query, applyStart, applyEnd, applyStore,
      applyStatus, getTruthy_none])
    (by decide)
